import Mathlib

/-!
Shallow embedding of the OneTalk communication-routing subsystem
(`onetalk_phone_manager.py`, `onetalk_multi_user_system.py`).

The two Python classes share a single SQLite database (`onetalk_system.db`);
we model the database as a `SystemState` record of tables (lists of rows) and
each method as a pure state-transition function.  SQL `ORDER BY ... LIMIT 1`
queries are modelled by `selectMin`, which returns the first minimal element
of the candidate list under the query's ordering; SQL leaves the order of
ties unspecified, and every theorem below is stated so that it holds for any
tie-break.  UUIDs, timestamps and the current date, which the Python code
draws from the environment, are passed in as explicit parameters.
-/

namespace OneTalk

/-- Auxiliary scan for Python's substring test `needle in hay` on char lists. -/
def strContainsAux (needle : List Char) : List Char → Bool
  | [] => needle.isEmpty
  | c :: rest => needle.isPrefixOf (c :: rest) || strContainsAux needle rest

/-- Python `needle in hay` for strings (empty needle is contained in anything). -/
def strContains (hay needle : String) : Bool :=
  strContainsAux needle.data hay.data

/-- Python `str.upper()` (the source only feeds ASCII phone-number strings). -/
def strUpper (s : String) : String := ⟨s.data.map Char.toUpper⟩

/-- Python `str.lower()` (the source only feeds ASCII strings). -/
def strLower (s : String) : String := ⟨s.data.map Char.toLower⟩

/-- Lexicographic character-list comparison.  SQLite orders TEXT values by
memcmp over their UTF-8 bytes, which on the ASCII data of this system is the
code-point lexicographic order implemented here. -/
def charsLt : List Char → List Char → Bool
  | [], [] => false
  | [], _ :: _ => true
  | _ :: _, [] => false
  | a :: as, b :: bs => if a < b then true else if b < a then false else charsLt as bs

/-- SQLite TEXT comparison on strings. -/
def strLtB (a b : String) : Bool := charsLt a.data b.data

/-- Python truthiness test for an optional string: `None` and `""` are falsy. -/
def optFalsy : Option String → Bool
  | none => true
  | some s => decide (s = "")

/-- Model of an SQL `ORDER BY key LIMIT 1` query over a candidate list:
returns the first element no other candidate strictly precedes (`lt` is the
strict order induced by the `ORDER BY` clause). -/
def selectMin {α : Type} (lt : α → α → Prop) [DecidableRel lt] : List α → Option α
  | [] => none
  | x :: xs =>
    match selectMin lt xs with
    | none => some x
    | some y => if lt y x then some y else some x

/-- Row of the `phone_numbers` table (`onetalk_phone_manager.py`, `init_phone_database`). -/
structure PhoneRow where
  id : String
  phone_number : String
  department_id : Option String
  user_id : Option String
  status : String
  type : String
  priority : Int
  max_concurrent_calls : Int
  current_calls : Int
deriving DecidableEq

/-- Row of the `call_routing` table. -/
structure CallRoutingRow where
  id : String
  from_number : String
  to_number : String
  routed_to_number : Option String
  routed_to_user : Option String
  department : Option String
  routing_reason : String
  timestamp : String
  call_duration : Option Int
  status : String
deriving DecidableEq

/-- Row of the `phone_stats` table. -/
structure PhoneStatsRow where
  id : String
  phone_number : String
  date : String
  total_calls : Int
  total_sms : Int
  total_duration : Int
deriving DecidableEq

/-- Row of the `users` table (`onetalk_multi_user_system.py`, `init_database`). -/
structure UserRow where
  id : String
  name : String
  department : String
  phone_number : Option String
  role : String
  status : String
deriving DecidableEq

/-- Row of the `departments` table (`phone_numbers` column is a JSON array,
modelled as the list it encodes). -/
structure DepartmentRow where
  id : String
  name : String
  lead_user_id : Option String
  phone_numbers : List String
deriving DecidableEq

/-- Row of the `communications` table. -/
structure CommunicationRow where
  id : String
  timestamp : String
  from_number : String
  to_number : String
  user_id : Option String
  department_id : Option String
  type : String
  content : String
  status : String
  duration : Option Int
deriving DecidableEq

/-- Row of the `routing_rules` table. -/
structure RoutingRuleRow where
  id : String
  priority : Int
  condition_type : String
  condition_value : String
  target_department : String
  target_user : Option String
  is_active : Bool
deriving DecidableEq

/-- The whole shared SQLite database. -/
structure SystemState where
  phone_numbers : List PhoneRow
  call_routing : List CallRoutingRow
  phone_stats : List PhoneStatsRow
  users : List UserRow
  departments : List DepartmentRow
  communications : List CommunicationRow
  routing_rules : List RoutingRuleRow
deriving DecidableEq

/-- The freshly initialised database: all tables empty. -/
def emptyState : SystemState := ⟨[], [], [], [], [], [], []⟩

/-- `INSERT OR IGNORE INTO phone_stats (id, phone_number, date) VALUES (pn_today, pn, today)`:
insert a zeroed stats row unless a row conflicts on the primary key or on
`UNIQUE(phone_number, date)`. -/
def statsEnsure (st : SystemState) (pn today : String) : SystemState :=
  if st.phone_stats.any (fun s =>
      decide (s.id = pn ++ "_" ++ today ∨ (s.phone_number = pn ∧ s.date = today))) then st
  else { st with phone_stats :=
    st.phone_stats ++ [⟨pn ++ "_" ++ today, pn, today, 0, 0, 0⟩] }

/-- `register_phone_number`: `INSERT INTO phone_numbers ...` raises
`sqlite3.IntegrityError` when the UNIQUE phone number (or the primary key)
already exists, in which case the method returns the error message and the
transaction leaves the database untouched; on success the new row gets the
column defaults `status='available'`, `current_calls=0`, and
`update_phone_stats(..., new_registration=True)` ensures today's stats row. -/
def register_phone_number (st : SystemState) (phone_id pn : String)
    (department_id user_id : Option String) (phone_type : String)
    (priority max_concurrent : Int) (today : String) :
    SystemState × Except String String :=
  if st.phone_numbers.any (fun p => decide (p.phone_number = pn ∨ p.id = phone_id)) then
    (st, Except.error ("Phone " ++ pn ++ " already registered"))
  else
    let st1 := { st with phone_numbers := st.phone_numbers ++
      [⟨phone_id, pn, department_id, user_id, "available", phone_type, priority, max_concurrent, 0⟩] }
    (statsEnsure st1 pn today, Except.ok ("Phone " ++ pn ++ " registered"))

/-- Strict order of `ORDER BY priority DESC, current_calls ASC`. -/
def phoneLt (a b : PhoneRow) : Prop :=
  b.priority < a.priority ∨ (a.priority = b.priority ∧ a.current_calls < b.current_calls)

instance : DecidableRel phoneLt := fun a b => by unfold phoneLt; exact inferInstance

/-- The row filter shared by both queries of `get_available_phone`:
`status = 'available' AND current_calls < max_concurrent_calls AND priority >= ?`. -/
def phoneEligible (priority_min : Int) (p : PhoneRow) : Prop :=
  p.status = "available" ∧ p.current_calls < p.max_concurrent_calls ∧ priority_min ≤ p.priority

instance (pm : Int) (p : PhoneRow) : Decidable (phoneEligible pm p) := by
  unfold phoneEligible; exact inferInstance

/-- Candidate rows of the department-specific query of `get_available_phone`. -/
def deptEligible (st : SystemState) (d : String) (pm : Int) : List PhoneRow :=
  st.phone_numbers.filter (fun p => decide (p.department_id = some d ∧ phoneEligible pm p))

/-- Candidate rows of the fallback query of `get_available_phone`
(`department_id IS NULL OR department_id = 'general'`). -/
def generalEligible (st : SystemState) (pm : Int) : List PhoneRow :=
  st.phone_numbers.filter (fun p =>
    decide ((p.department_id = none ∨ p.department_id = some "general") ∧ phoneEligible pm p))

/-- `get_available_phone(department_id, priority_min)`: when the
`department_id` argument is truthy (`if department_id:` — both `None` and
the empty string are falsy and skip this step), try the department query
first; then fall back to unassigned/general phones; both queries ordered by
`priority DESC, current_calls ASC` with `LIMIT 1`. -/
def get_available_phone (st : SystemState) (department_id : Option String)
    (priority_min : Int) : Option String :=
  let fallback := (selectMin phoneLt (generalEligible st priority_min)).map (·.phone_number)
  match department_id with
  | some d =>
    if d = "" then fallback
    else
      match selectMin phoneLt (deptEligible st d priority_min) with
      | some p => some p.phone_number
      | none => fallback
  | none => fallback

/-- `determine_target_department(to_number, department_hint)`. -/
def determine_target_department (st : SystemState) (to_number : String)
    (department_hint : Option String) : String :=
  let lookup :=
    match st.phone_numbers.find? (fun p =>
        decide (p.phone_number = to_number ∧ p.department_id ≠ none)) with
    | some p => p.department_id.getD "general"
    | none =>
      let u := strUpper to_number
      if strContains u "SALES" then "sales"
      else if strContains u "CREDIT" then "credit_analysis"
      else if strContains u "TRANSPORT" then "vehicle_transport"
      else if strContains u "SUPPORT" then "customer_service"
      else "general"
  match department_hint with
  | some h => if h = "" then lookup else h
  | none => lookup

/-- `get_voicemail_number`. -/
def get_voicemail_number : String := "+1-555-VOICE-MAIL"

/-- Strict order of `ORDER BY (current_calls * 1.0 / max_concurrent_calls) ASC`;
the SQL float ratio comparison is modelled by integer cross-multiplication,
which agrees with it whenever `max_concurrent_calls` is positive (no claim
below depends on which tied or zero-capacity row the query picks). -/
def ratioLt (a b : PhoneRow) : Prop :=
  a.current_calls * b.max_concurrent_calls < b.current_calls * a.max_concurrent_calls

instance : DecidableRel ratioLt := fun a b => by unfold ratioLt; exact inferInstance

/-- Strict order of `ORDER BY priority DESC, (current_calls * 1.0 / max_concurrent_calls) ASC`. -/
def overflowLt (a b : PhoneRow) : Prop :=
  b.priority < a.priority ∨ (a.priority = b.priority ∧ ratioLt a b)

instance : DecidableRel overflowLt := fun a b => by
  unfold overflowLt; exact inferInstance

/-- `handle_overflow_routing(department)`: least-loaded available phone of the
department, else best available phone anywhere, else the voicemail number;
capacity (`current_calls < max_concurrent_calls`) is deliberately not checked. -/
def handle_overflow_routing (st : SystemState) (department : String) : String × String :=
  let deptAvail := st.phone_numbers.filter (fun p =>
    decide (p.department_id = some department ∧ p.status = "available"))
  match selectMin ratioLt deptAvail with
  | some p => (p.phone_number, "overflow_same_department")
  | none =>
    let anyAvail := st.phone_numbers.filter (fun p => decide (p.status = "available"))
    match selectMin overflowLt anyAvail with
    | some p => (p.phone_number, "overflow_cross_department")
    | none => (get_voicemail_number, "overflow_voicemail")

/-- `increment_phone_usage(phone_number, usage_type)`: bump `current_calls`
for a call, then ensure and bump today's stats row for calls and SMS. -/
def increment_phone_usage (st : SystemState) (pn usage_type today : String) : SystemState :=
  let st1 :=
    if usage_type = "call" then
      { st with phone_numbers := st.phone_numbers.map (fun p =>
          if p.phone_number = pn then { p with current_calls := p.current_calls + 1 } else p) }
    else st
  if usage_type = "call" then
    let st2 := statsEnsure st1 pn today
    { st2 with phone_stats := st2.phone_stats.map (fun s =>
        if s.phone_number = pn ∧ s.date = today then
          { s with total_calls := s.total_calls + 1 } else s) }
  else if usage_type = "sms" then
    let st2 := statsEnsure st1 pn today
    { st2 with phone_stats := st2.phone_stats.map (fun s =>
        if s.phone_number = pn ∧ s.date = today then
          { s with total_sms := s.total_sms + 1 } else s) }
  else st1

/-- The dictionary `route_incoming_call` builds for its caller.  The source
never reaches its `return` statement (see `route_incoming_call` below), so no
caller ever receives one. -/
structure RouteResult where
  route_id : String
  from_number : String
  to_number : String
  routed_to : String
  department : String
  routing_reason : String
  timestamp : String
deriving DecidableEq

/-- `route_incoming_call(from_number, to_number, department_hint)`.  The
source computes the target department and routed phone with short-lived
read connections, then INSERTs the routing row on its own connection and —
with that INSERT still uncommitted and holding SQLite's write lock on the
shared database file — calls `increment_phone_usage`, which opens a second
connection and issues writes (`current_calls` bump, stats upsert).  The
second connection's first actual write fails with
`sqlite3.OperationalError: database is locked`; the exception propagates out
of the method before `conn.commit()` is reached, so neither connection
commits and the uncommitted INSERT is rolled back.  The method therefore
deterministically raises and leaves the store unchanged, which is what this
model returns. -/
def route_incoming_call (st : SystemState) (route_id timestamp from_number to_number : String)
    (department_hint : Option String) (today : String) :
    SystemState × Except String RouteResult :=
  (st, Except.error "database is locked")

/-- `end_call(route_id, duration_seconds)`: look up the routing row; when it
exists, mark it completed with the duration, decrement the routed phone's
`current_calls` through `MAX(0, current_calls - 1)`, and add the duration to
today's stats row of the routed phone.  The `users` table is not touched. -/
def end_call (st : SystemState) (route_id : String) (duration_seconds : Int)
    (today : String) : SystemState :=
  match st.call_routing.find? (fun r => decide (r.id = route_id)) with
  | none => st
  | some r =>
    { st with
      call_routing := st.call_routing.map (fun x =>
        if x.id = route_id then
          { x with call_duration := some duration_seconds, status := "completed" } else x),
      phone_numbers := st.phone_numbers.map (fun p =>
        if some p.phone_number = r.routed_to_number then
          { p with current_calls := max 0 (p.current_calls - 1) } else p),
      phone_stats := st.phone_stats.map (fun s =>
        if some s.phone_number = r.routed_to_number ∧ s.date = today then
          { s with total_duration := s.total_duration + duration_seconds } else s) }

/-- Strict order of `ORDER BY role DESC, name ASC` on `users` (TEXT columns
compare in SQLite's byte order, modelled by `strLtB`). -/
def userLt (a b : UserRow) : Prop :=
  strLtB b.role a.role = true ∨ (a.role = b.role ∧ strLtB a.name b.name = true)

instance : DecidableRel userLt := fun a b => by unfold userLt; exact inferInstance

/-- The row filter of both queries of `find_available_user`:
`department = ? AND status = 'available'` (an SQL NULL department parameter
matches no row). -/
def userEligible (department : Option String) (u : UserRow) : Prop :=
  some u.department = department ∧ u.status = "available"

instance (d : Option String) (u : UserRow) : Decidable (userEligible d u) := by
  unfold userEligible; exact inferInstance

/-- Available users of the department, in table order. -/
def availableUsers (st : SystemState) (department : Option String) : List UserRow :=
  st.users.filter (fun u => decide (userEligible department u))

/-- `find_available_user(department, preferred_user)`: return the preferred
user when it is truthy and has an available row in the department, else the
first available department user under `ORDER BY role DESC, name ASC LIMIT 1`. -/
def find_available_user (st : SystemState) (department : Option String)
    (preferred_user : Option String) : Option String :=
  let preferredHit :=
    match preferred_user with
    | some p =>
      if p ≠ "" ∧ st.users.any (fun u =>
          decide (u.id = p ∧ some u.department = department ∧ u.status = "available")) then
        some p
      else none
    | none => none
  match preferredHit with
  | some p => some p
  | none => (selectMin userLt (availableUsers st department)).map (·.id)

/-- The per-rule match test of the loop in `apply_routing_rules`
(`time_based` rules fall through unimplemented; `department` rules call
`check_department_condition`, a lower-cased substring test on `from_number`). -/
def ruleMatches (from_number to_number : String) (r : RoutingRuleRow) : Bool :=
  if r.condition_type = "phone_pattern" then
    strContains from_number r.condition_value || strContains to_number r.condition_value
  else if r.condition_type = "time_based" then false
  else if r.condition_type = "department" then
    strContains (strLower from_number) (strLower r.condition_value)
  else false

/-- The `ORDER BY priority ASC` relation on routing rules. -/
def rulePriorityLE (a b : RoutingRuleRow) : Prop := a.priority ≤ b.priority

instance : DecidableRel rulePriorityLE := fun a b => by
  unfold rulePriorityLE; exact inferInstance

instance : IsTotal RoutingRuleRow rulePriorityLE :=
  ⟨fun a b => le_total a.priority b.priority⟩

instance : IsTrans RoutingRuleRow rulePriorityLE :=
  ⟨fun _ _ _ h h' => le_trans h h'⟩

/-- The result set of `SELECT ... FROM routing_rules WHERE is_active = TRUE
ORDER BY priority ASC`. -/
def activeRulesSorted (st : SystemState) : List RoutingRuleRow :=
  List.insertionSort rulePriorityLE (st.routing_rules.filter (fun r => r.is_active))

/-- The scanning loop of `apply_routing_rules`: first rule that matches. -/
def firstRuleMatch (from_number to_number : String) :
    List RoutingRuleRow → Option RoutingRuleRow
  | [] => none
  | r :: rest =>
    if ruleMatches from_number to_number r then some r
    else firstRuleMatch from_number to_number rest

/-- `apply_routing_rules(from_number, to_number, message_type)` (the
`message_type` argument is accepted and ignored by the source loop). -/
def apply_routing_rules (st : SystemState) (from_number to_number message_type : String) :
    Option String × Option String :=
  match firstRuleMatch from_number to_number (activeRulesSorted st) with
  | some r => (some r.target_department, r.target_user)
  | none => (none, none)

/-- Interaction count of a `(department_id, user_id)` group among the
communications matching a caller, for `find_existing_customer`. -/
def commKeyCount (ms : List CommunicationRow) (k : Option String × Option String) : Nat :=
  (ms.filter (fun c => decide ((c.department_id, c.user_id) = k))).length

/-- `find_existing_customer(phone_number)`: group the caller's past
communications by `(department_id, user_id)` and return the group with the
highest interaction count.  The SQL tie-break (`ORDER BY ... c.timestamp DESC`
on a bare column of a grouped query) is unspecified by SQLite; the model
returns the first maximal group and no theorem depends on the tie-break. -/
def find_existing_customer (st : SystemState) (pn : String) :
    Option (Option String × Option String) :=
  let ms := st.communications.filter (fun c => decide (c.from_number = pn ∨ c.to_number = pn))
  let keys := (ms.map (fun c => (c.department_id, c.user_id))).dedup
  selectMin (fun a b => commKeyCount ms b < commKeyCount ms a) keys

/-- Python `any(word in content_lower for word in ws)`. -/
def wordAny (content_lower : String) (ws : List String) : Bool :=
  ws.any (fun w => strContains content_lower w)

/-- `default_classification(from_number, to_number, content)`. -/
def default_classification (st : SystemState) (from_number content : String) :
    Option String × Option String :=
  match find_existing_customer st from_number with
  | some k => k
  | none =>
    let cl := strLower content
    if wordAny cl ["credit", "loan", "financing", "approval"] then
      (some "credit_analysis", none)
    else if wordAny cl ["transport", "vehicle", "shipping", "delivery"] then
      (some "vehicle_transport", none)
    else if wordAny cl ["sales", "buy", "purchase", "deal"] then
      (some "sales", none)
    else (some "customer_service", none)

/-- The `(target_dept, target_user)` pair computed by
`classify_incoming_communication` before user assignment: rules first, then
`default_classification` when the rules produced a falsy department. -/
def classify_target (st : SystemState) (from_number to_number message_type content : String) :
    Option String × Option String :=
  let r := apply_routing_rules st from_number to_number message_type
  if optFalsy r.1 then default_classification st from_number content else r

/-- The communication row that `create_communication_record` inserts for an
inbound event (column defaults `status='active'`, `duration` NULL). -/
def classify_record (st : SystemState) (comm_id timestamp from_number to_number message_type content : String) :
    CommunicationRow :=
  let t := classify_target st from_number to_number message_type content
  ⟨comm_id, timestamp, from_number, to_number, find_available_user st t.1 t.2, t.1,
    message_type, content, "active", none⟩

/-- `update_user_status(user_id, status)` (an SQL NULL `user_id` matches no row). -/
def update_user_status (st : SystemState) (user_id : Option String) (status : String) :
    SystemState :=
  { st with users := st.users.map (fun u =>
      if some u.id = user_id then { u with status := status } else u) }

/-- The dictionary returned by `classify_incoming_communication`. -/
structure ClassifyResult where
  communication_id : String
  assigned_user : Option String
  department : Option String
  routing_method : String
deriving DecidableEq

/-- `classify_incoming_communication(from_number, to_number, message_type, content)`:
resolve the target, assign a user, insert the communication record, and let
`route_communication` set the assigned user busy for calls (its webhook post
and insights-file append have no database effect). -/
def classify_incoming_communication (st : SystemState)
    (comm_id timestamp from_number to_number message_type content : String) :
    SystemState × ClassifyResult :=
  let t := classify_target st from_number to_number message_type content
  let assigned := find_available_user st t.1 t.2
  let st1 := { st with communications := st.communications ++
    [classify_record st comm_id timestamp from_number to_number message_type content] }
  let st2 := if message_type = "call" then update_user_status st1 assigned "busy" else st1
  (st2, ⟨comm_id, assigned, t.1, if optFalsy t.1 then "default" else "rules"⟩)

/-- Python `str.title()` on the ASCII department identifiers: a letter is
upper-cased exactly when the previous character is not a letter. -/
def pyTitleAux : Bool → List Char → List Char
  | _, [] => []
  | prevAlpha, c :: rest =>
    (if c.isAlpha then (if prevAlpha then c.toLower else c.toUpper) else c) ::
      pyTitleAux c.isAlpha rest

/-- Python `s.title()`. -/
def pyTitle (s : String) : String := ⟨pyTitleAux false s.data⟩

/-- Python `s.replace("_", " ")`. -/
def underscoreToSpace (s : String) : String :=
  ⟨s.data.map (fun c => if c = '_' then ' ' else c)⟩

/-- `create_department(dept_id, name, lead_user_id, phone_numbers)`:
`INSERT OR REPLACE INTO departments`. -/
def create_department (st : SystemState) (dept_id name : String)
    (lead_user_id : Option String) (phone_numbers : List String) : SystemState × String :=
  ({ st with departments := st.departments.filter (fun d => decide (d.id ≠ dept_id)) ++
      [⟨dept_id, name, lead_user_id, phone_numbers⟩] },
   "Department " ++ name ++ " created")

/-- `update_department_membership(department, user_id)`: create the department
when it does not exist (membership itself is tracked via the users table). -/
def update_department_membership (st : SystemState) (department : String) : SystemState :=
  if st.departments.any (fun d => decide (d.id = department)) then st
  else (create_department st department (pyTitle (underscoreToSpace department)) none []).1

/-- `add_user(user_id, name, department, phone_number, role)`:
`INSERT OR REPLACE INTO users (id, name, department, phone_number, role)` —
the REPLACE conflict action deletes any row with the same primary key and
inserts the new one, whose omitted `status` column takes the default
`'available'`; then department membership is updated and a success message is
returned unconditionally. -/
def add_user (st : SystemState) (user_id name department : String)
    (phone_number : Option String) (role : String) : SystemState × String :=
  let st1 := { st with users := st.users.filter (fun u => decide (u.id ≠ user_id)) ++
    [⟨user_id, name, department, phone_number, role, "available"⟩] }
  (update_department_membership st1 department,
   "User " ++ name ++ " added to " ++ department ++ " department")

/-- The four phone-manager operations quantified over by the reachability
claims, with the environment-supplied identifiers, timestamps and dates as
explicit fields. -/
inductive Op where
  | register (phone_id pn : String) (department_id user_id : Option String)
      (phone_type : String) (priority max_concurrent : Int) (today : String)
  | route (route_id timestamp from_number to_number : String)
      (department_hint : Option String) (today : String)
  | increment (pn usage_type today : String)
  | endCall (route_id : String) (duration_seconds : Int) (today : String)

/-- One operation applied to the store. -/
def step (st : SystemState) : Op → SystemState
  | .register pid pn d u ty pr mc today => (register_phone_number st pid pn d u ty pr mc today).1
  | .route rid ts f t h today => (route_incoming_call st rid ts f t h today).1
  | .increment pn ty today => increment_phone_usage st pn ty today
  | .endCall rid d today => end_call st rid d today

/-- The store reached by a sequence of operations from the empty store. -/
def run (ops : List Op) : SystemState := ops.foldl step emptyState

/-! Basic lemmas about the query-selection and ordering helpers. -/

theorem selectMin_mem {α : Type} {lt : α → α → Prop} [DecidableRel lt] :
    ∀ {l : List α} {m : α}, selectMin lt l = some m → m ∈ l := by
  intro l
  induction l with
  | nil => intro m h; simp [selectMin] at h
  | cons x xs ih =>
    intro m h
    simp only [selectMin] at h
    cases hxs : selectMin lt xs with
    | none =>
      rw [hxs] at h
      injection h with h
      exact h ▸ List.mem_cons_self x xs
    | some y =>
      rw [hxs] at h
      dsimp only at h
      by_cases hlt : lt y x
      · rw [if_pos hlt] at h
        injection h with h
        exact List.mem_cons_of_mem x (h ▸ ih hxs)
      · rw [if_neg hlt] at h
        injection h with h
        exact h ▸ List.mem_cons_self x xs

theorem selectMin_eq_none {α : Type} {lt : α → α → Prop} [DecidableRel lt] :
    ∀ {l : List α}, selectMin lt l = none ↔ l = [] := by
  intro l
  cases l with
  | nil => simp [selectMin]
  | cons x xs =>
    simp only [selectMin]
    constructor
    · intro h
      exfalso
      cases hxs : selectMin lt xs with
      | none => rw [hxs] at h; exact Option.noConfusion h
      | some y =>
        rw [hxs] at h
        dsimp only at h
        by_cases hlt : lt y x
        · rw [if_pos hlt] at h; exact Option.noConfusion h
        · rw [if_neg hlt] at h; exact Option.noConfusion h
    · intro h; exact absurd h (List.cons_ne_nil x xs)

theorem selectMin_not_lt {α : Type} {lt : α → α → Prop} [DecidableRel lt]
    (asymm : ∀ a b, lt a b → ¬ lt b a)
    (negTrans : ∀ a b c, ¬ lt a b → ¬ lt b c → ¬ lt a c) :
    ∀ {l : List α} {m : α}, selectMin lt l = some m → ∀ z ∈ l, ¬ lt z m := by
  intro l
  induction l with
  | nil => intro m h; simp [selectMin] at h
  | cons x xs ih =>
    intro m h z hz
    simp only [selectMin] at h
    cases hxs : selectMin lt xs with
    | none =>
      rw [hxs] at h
      injection h with h
      subst h
      rcases List.mem_cons.mp hz with hz | hz
      · intro hc; rw [hz] at hc; exact asymm x x hc hc
      · rw [selectMin_eq_none.mp hxs] at hz; exact absurd hz (List.not_mem_nil z)
    | some y =>
      rw [hxs] at h
      dsimp only at h
      by_cases hlt : lt y x
      · rw [if_pos hlt] at h
        injection h with h
        subst h
        rcases List.mem_cons.mp hz with hz | hz
        · intro hc; rw [hz] at hc; exact asymm y x hlt hc
        · exact ih hxs z hz
      · rw [if_neg hlt] at h
        injection h with h
        subst h
        rcases List.mem_cons.mp hz with hz | hz
        · intro hc; rw [hz] at hc; exact asymm x x hc hc
        · exact negTrans z y x (ih hxs z hz) hlt

theorem charsLt_irrefl : ∀ as, charsLt as as = false := by
  intro as
  induction as with
  | nil => rfl
  | cons a as ih =>
    simp only [charsLt]
    rw [if_neg (lt_irrefl a), if_neg (lt_irrefl a)]
    exact ih

theorem charsLt_asymm : ∀ as bs, charsLt as bs = true → charsLt bs as = false := by
  intro as
  induction as with
  | nil =>
    intro bs h
    cases bs with
    | nil => simp [charsLt] at h
    | cons b bs => simp [charsLt]
  | cons a as ih =>
    intro bs h
    cases bs with
    | nil => simp [charsLt] at h
    | cons b bs =>
      simp only [charsLt] at h ⊢
      by_cases hab : a < b
      · rw [if_neg (lt_asymm hab), if_pos hab]
      · rw [if_neg hab] at h
        by_cases hba : b < a
        · rw [if_pos hba] at h; exact absurd h (by simp)
        · rw [if_neg hba] at h
          rw [if_neg hba, if_neg hab]
          exact ih bs h

theorem charsLt_conn : ∀ as bs, charsLt as bs = false → charsLt bs as = false → as = bs := by
  intro as
  induction as with
  | nil =>
    intro bs h1 _
    cases bs with
    | nil => rfl
    | cons b bs => simp [charsLt] at h1
  | cons a as ih =>
    intro bs h1 h2
    cases bs with
    | nil => simp [charsLt] at h2
    | cons b bs =>
      simp only [charsLt] at h1 h2
      by_cases hab : a < b
      · rw [if_pos hab] at h1; exact absurd h1 (by simp)
      · by_cases hba : b < a
        · rw [if_pos hba] at h2; exact absurd h2 (by simp)
        · rw [if_neg hab, if_neg hba] at h1
          rw [if_neg hba, if_neg hab] at h2
          have hab' : a = b := le_antisymm (le_of_not_lt hba) (le_of_not_lt hab)
          rw [hab', ih bs h1 h2]

theorem charsLt_negTrans :
    ∀ as bs cs, charsLt as bs = false → charsLt bs cs = false → charsLt as cs = false := by
  intro as
  induction as with
  | nil =>
    intro bs cs h1 h2
    cases bs with
    | nil => exact h2
    | cons b bs => simp [charsLt] at h1
  | cons a as ih =>
    intro bs cs h1 h2
    cases bs with
    | nil =>
      cases cs with
      | nil => rfl
      | cons c cs => simp [charsLt] at h2
    | cons b bs =>
      cases cs with
      | nil => rfl
      | cons c cs =>
        simp only [charsLt] at h1 h2 ⊢
        by_cases hab : a < b
        · rw [if_pos hab] at h1; exact absurd h1 (by simp)
        · rw [if_neg hab] at h1
          by_cases hbc : b < c
          · rw [if_pos hbc] at h2; exact absurd h2 (by simp)
          · rw [if_neg hbc] at h2
            by_cases hac : a < c
            · exact absurd hac (not_lt.mpr (le_trans (le_of_not_lt hbc) (le_of_not_lt hab)))
            · rw [if_neg hac]
              by_cases hca : c < a
              · rw [if_pos hca]
              · rw [if_neg hca]
                have hba : b ≤ a := le_of_not_lt hab
                have hcb : c ≤ b := le_of_not_lt hbc
                have hac' : a ≤ c := le_of_not_lt hca
                have heab : a = b := le_antisymm (le_trans hac' hcb) hba
                have hebc : b = c := le_antisymm (le_trans hba hac') hcb
                rw [if_neg (heab ▸ lt_irrefl a : ¬ b < a)] at h1
                rw [if_neg (hebc ▸ lt_irrefl b : ¬ c < b)] at h2
                exact ih bs cs h1 h2

theorem strLtB_irrefl (a : String) : strLtB a a = false := charsLt_irrefl a.data

theorem strLtB_asymm {a b : String} (h : strLtB a b = true) : strLtB b a = false :=
  charsLt_asymm a.data b.data h

theorem strLtB_conn {a b : String} (h1 : strLtB a b = false) (h2 : strLtB b a = false) :
    a = b := by
  cases a with
  | mk da =>
    cases b with
    | mk db => exact congrArg String.mk (charsLt_conn da db h1 h2)

theorem strLtB_negTrans {a b c : String} (h1 : strLtB a b = false)
    (h2 : strLtB b c = false) : strLtB a c = false :=
  charsLt_negTrans a.data b.data c.data h1 h2

theorem userLt_asymm : ∀ a b, userLt a b → ¬ userLt b a := by
  intro a b h hb
  unfold userLt at h hb
  rcases h with h | ⟨he, hn⟩
  · rcases hb with hb | ⟨hbe, _⟩
    · rw [strLtB_asymm h] at hb; exact Bool.noConfusion hb
    · rw [hbe] at h; rw [strLtB_irrefl] at h; exact Bool.noConfusion h
  · rcases hb with hb | ⟨_, hbn⟩
    · rw [he] at hb; rw [strLtB_irrefl] at hb; exact Bool.noConfusion hb
    · rw [strLtB_asymm hn] at hbn; exact Bool.noConfusion hbn

theorem userLt_negTrans : ∀ a b c, ¬ userLt a b → ¬ userLt b c → ¬ userLt a c := by
  intro a b c h1 h2 h3
  unfold userLt at h1 h2 h3
  push_neg at h1 h2
  have h1a : strLtB b.role a.role = false := Bool.not_eq_true _ ▸ h1.1
  have h2a : strLtB c.role b.role = false := Bool.not_eq_true _ ▸ h2.1
  rcases h3 with h3 | ⟨he, hn⟩
  · rw [strLtB_negTrans h2a h1a] at h3; exact Bool.noConfusion h3
  · have h2a' : strLtB a.role b.role = false := he ▸ h2a
    have hrole : b.role = a.role := strLtB_conn h1a h2a'
    have hn1 : strLtB a.name b.name = false :=
      Bool.not_eq_true _ ▸ h1.2 hrole.symm
    have hn2 : strLtB b.name c.name = false :=
      Bool.not_eq_true _ ▸ h2.2 (hrole.trans he)
    rw [strLtB_negTrans hn1 hn2] at hn; exact Bool.noConfusion hn

theorem phoneLt_asymm : ∀ a b, phoneLt a b → ¬ phoneLt b a := by
  intro a b h hb
  unfold phoneLt at h hb
  omega

theorem phoneLt_negTrans : ∀ a b c, ¬ phoneLt a b → ¬ phoneLt b c → ¬ phoneLt a c := by
  intro a b c h1 h2 h3
  unfold phoneLt at h1 h2 h3
  omega

/-! Claim C1: reachable-state bounds on `current_calls`. -/

theorem statsEnsure_phone_numbers (st : SystemState) (pn today : String) :
    (statsEnsure st pn today).phone_numbers = st.phone_numbers := by
  unfold statsEnsure; split <;> rfl

/-- The lower bound of the capacity invariant: every registered phone row has
a nonnegative in-flight call count. -/
def PhoneLB (st : SystemState) : Prop :=
  ∀ p ∈ st.phone_numbers, 0 ≤ p.current_calls

theorem increment_phone_numbers (st : SystemState) (pn ty today : String) :
    (increment_phone_usage st pn ty today).phone_numbers =
      if ty = "call" then
        st.phone_numbers.map (fun p =>
          if p.phone_number = pn then { p with current_calls := p.current_calls + 1 } else p)
      else st.phone_numbers := by
  by_cases h : ty = "call"
  · simp [increment_phone_usage, h, statsEnsure_phone_numbers]
  · by_cases h2 : ty = "sms"
    · simp [increment_phone_usage, h, h2, statsEnsure_phone_numbers]
    · simp [increment_phone_usage, h, h2]

theorem increment_LB (st : SystemState) (pn ty today : String) (h : PhoneLB st) :
    PhoneLB (increment_phone_usage st pn ty today) := by
  intro p hp
  rw [increment_phone_numbers] at hp
  by_cases hc : ty = "call"
  · rw [if_pos hc] at hp
    rcases List.mem_map.mp hp with ⟨q, hq, rfl⟩
    have hq0 := h q hq
    split <;> simp <;> omega
  · rw [if_neg hc] at hp
    exact h p hp

theorem register_LB (st : SystemState) (pid pn : String) (d u : Option String)
    (ty : String) (pr mc : Int) (today : String) (h : PhoneLB st) :
    PhoneLB (register_phone_number st pid pn d u ty pr mc today).1 := by
  unfold register_phone_number
  split
  · exact h
  · intro p hp
    rw [statsEnsure_phone_numbers] at hp
    rcases List.mem_append.mp hp with hp | hp
    · exact h p hp
    · rcases List.mem_singleton.mp hp with rfl
      simp

theorem route_LB (st : SystemState) (rid ts f t : String) (hint : Option String)
    (today : String) (h : PhoneLB st) :
    PhoneLB (route_incoming_call st rid ts f t hint today).1 := h

theorem end_call_LB (st : SystemState) (rid : String) (d : Int) (today : String)
    (h : PhoneLB st) : PhoneLB (end_call st rid d today) := by
  unfold end_call
  cases st.call_routing.find? (fun r => decide (r.id = rid)) with
  | none => exact h
  | some r =>
    intro p hp
    rcases List.mem_map.mp hp with ⟨q, hq, rfl⟩
    split
    · simp
    · exact h q hq

theorem step_LB (st : SystemState) (op : Op) (h : PhoneLB st) : PhoneLB (step st op) := by
  cases op with
  | register pid pn d u ty pr mc today => exact register_LB st pid pn d u ty pr mc today h
  | route rid ts f t hint today => exact route_LB st rid ts f t hint today h
  | increment pn ty today => exact increment_LB st pn ty today h
  | endCall rid d today => exact end_call_LB st rid d today h

theorem foldl_LB : ∀ (ops : List Op) (st : SystemState), PhoneLB st → PhoneLB (ops.foldl step st) := by
  intro ops
  induction ops with
  | nil => intro st h; exact h
  | cons op ops ih => intro st h; exact ih _ (step_LB st op h)

/-- C1 (amended): along every sequential execution of the four phone-manager
operations from the empty store, every registered phone satisfies
`0 <= current_calls`; the upper bound `current_calls <= max_concurrent_calls`
of the original claim is refuted by `c1_upper_bound_counterexample`. -/
theorem c1_lower_bound_invariant (ops : List Op) :
    ∀ p ∈ (run ops).phone_numbers, 0 ≤ p.current_calls :=
  foldl_LB ops emptyState (fun p hp => absurd hp (List.not_mem_nil p))

/-- Witness for `c1_lower_bound_invariant` at a concrete one-operation run. -/
theorem c1_lower_bound_invariant_witness :
    0 ≤ (⟨"pid1", "+15550001", none, none, "available", "business", 5, 1, 0⟩ : PhoneRow).current_calls :=
  c1_lower_bound_invariant
    [Op.register "pid1" "+15550001" none none "business" 5 1 "2025-01-01"] _ (by decide)

/-- A sequential trace that drives a capacity-1 phone to `current_calls = 2`:
two direct `increment_phone_usage` calls.  `increment_phone_usage` performs
no capacity check at all — `register_phone_number` commits before its stats
update and `increment_phone_usage` runs on a single connection of its own,
so unlike `route_incoming_call` this trace has no lock conflict and really
executes. -/
def c1CounterOps : List Op :=
  [Op.register "pid1" "+15550001" none none "business" 5 1 "2025-01-01",
   Op.increment "+15550001" "call" "2025-01-01",
   Op.increment "+15550001" "call" "2025-01-01"]

/-- C1 (counterexample): the claimed invariant
`0 <= current_calls <= max_concurrent_calls` fails in a state reachable by a
purely sequential run of the listed operations — `increment_phone_usage`
checks no capacity, so two increments of a capacity-1 phone leave
`current_calls = 2`; concurrency is not needed to break the upper bound. -/
theorem c1_upper_bound_counterexample :
    ¬ (∀ p ∈ (run c1CounterOps).phone_numbers,
        0 ≤ p.current_calls ∧ p.current_calls ≤ p.max_concurrent_calls) := by
  decide

/-! Claims C2 and C9: `find_available_user`. -/

/-- The qualification test of the preferred-user fast path: the preferred
argument is truthy and some user row has that id, the requested department,
and status available. -/
def preferredQualifies (st : SystemState) (department preferred_user : Option String) : Prop :=
  ∃ p, preferred_user = some p ∧ p ≠ "" ∧
    ∃ u ∈ st.users, u.id = p ∧ some u.department = department ∧ u.status = "available"

/-- The tie-break the specification sentence describes, written from its
words for comparison with the code's `find_available_user`: role `lead`
strictly before `member`, then name ascending. -/
def specRoleRank (r : String) : Nat := if r = "lead" then 0 else 1

/-- Strict order of the specification's described tie-break. -/
def userLtClaim (a b : UserRow) : Prop :=
  specRoleRank a.role < specRoleRank b.role ∨
    (specRoleRank a.role = specRoleRank b.role ∧ strLtB a.name b.name = true)

instance : DecidableRel userLtClaim := fun a b => by
  unfold userLtClaim; exact inferInstance

/-- The selector the claim describes (identical to `find_available_user`
except for the tie-break order). -/
def find_available_user_claim (st : SystemState) (department : Option String)
    (preferred_user : Option String) : Option String :=
  let preferredHit :=
    match preferred_user with
    | some p =>
      if p ≠ "" ∧ st.users.any (fun u =>
          decide (u.id = p ∧ some u.department = department ∧ u.status = "available")) then
        some p
      else none
    | none => none
  match preferredHit with
  | some p => some p
  | none => (selectMin userLtClaim (availableUsers st department)).map (·.id)

/-- C2 (counterexample): with an available lead `user_001` (Alice) and an
available member `user_002` (Bob) in `sales`, the code's
`ORDER BY role DESC` sorts the TEXT `'member'` before `'lead'` and returns
the member, while the claimed lead-before-member tie-break would return the
lead. -/
theorem c2_counterexample :
    (find_available_user
        { emptyState with users :=
            [⟨"user_001", "Alice Johnson", "sales", none, "lead", "available"⟩,
             ⟨"user_002", "Bob Smith", "sales", none, "member", "available"⟩] }
        (some "sales") none = some "user_002") ∧
    (find_available_user_claim
        { emptyState with users :=
            [⟨"user_001", "Alice Johnson", "sales", none, "lead", "available"⟩,
             ⟨"user_002", "Bob Smith", "sales", none, "member", "available"⟩] }
        (some "sales") none = some "user_001") ∧
    ¬ (find_available_user
        { emptyState with users :=
            [⟨"user_001", "Alice Johnson", "sales", none, "lead", "available"⟩,
             ⟨"user_002", "Bob Smith", "sales", none, "member", "available"⟩] }
        (some "sales") none =
       find_available_user_claim
        { emptyState with users :=
            [⟨"user_001", "Alice Johnson", "sales", none, "lead", "available"⟩,
             ⟨"user_002", "Bob Smith", "sales", none, "member", "available"⟩] }
        (some "sales") none) := by
  decide

/-- C2 (amended): `find_available_user` returns the preferred user exactly
when it exists, belongs to the department and is available; otherwise it
returns an available user of the department minimal under the code's actual
tie-break — role descending in SQLite TEXT order, which puts `'member'`
before `'lead'`, then name ascending — and it returns `none` exactly when
the department has no available user. -/
theorem c2_find_available_user_characterization (st : SystemState)
    (dept pref : Option String) :
    (∀ p, pref = some p → p ≠ "" →
        (∃ u ∈ st.users, u.id = p ∧ some u.department = dept ∧ u.status = "available") →
        find_available_user st dept pref = some p) ∧
    (find_available_user st dept pref = none ↔ availableUsers st dept = []) ∧
    (∀ uid, find_available_user st dept pref = some uid → ¬ preferredQualifies st dept pref →
        ∃ u ∈ availableUsers st dept, u.id = uid ∧ ∀ v ∈ availableUsers st dept, ¬ userLt v u) := by
  refine ⟨?_, ?_, ?_⟩
  · intro p hp hne hex
    subst hp
    have hany : st.users.any (fun u =>
        decide (u.id = p ∧ some u.department = dept ∧ u.status = "available")) = true := by
      rcases hex with ⟨u, hu, h1, h2, h3⟩
      exact List.any_eq_true.mpr ⟨u, hu, by simp [h1, h2, h3]⟩
    simp [find_available_user, hne, hany, hex]
  · cases pref with
    | none =>
      simp only [find_available_user]
      constructor
      · intro h
        rcases Option.map_eq_none'.mp h with h
        exact selectMin_eq_none.mp h
      · intro h
        rw [h]
        simp [selectMin]
    | some p =>
      by_cases hc : p ≠ "" ∧ st.users.any (fun u =>
          decide (u.id = p ∧ some u.department = dept ∧ u.status = "available")) = true
      · constructor
        · intro h
          simp only [find_available_user, if_pos hc] at h
          exact absurd h (Option.noConfusion)
        · intro h
          exfalso
          rcases List.any_eq_true.mp hc.2 with ⟨u, hu, hdec⟩
          have hprop := of_decide_eq_true hdec
          have : u ∈ availableUsers st dept :=
            List.mem_filter.mpr ⟨hu, decide_eq_true ⟨hprop.2.1, hprop.2.2⟩⟩
          rw [h] at this
          exact absurd this (List.not_mem_nil u)
      · constructor
        · intro h
          simp only [find_available_user, if_neg hc] at h
          rcases Option.map_eq_none'.mp h with h
          exact selectMin_eq_none.mp h
        · intro h
          simp only [find_available_user, if_neg hc, h]
          simp [selectMin]
  · intro uid h hnp
    have hsel : (selectMin userLt (availableUsers st dept)).map (·.id) = some uid := by
      cases pref with
      | none => simpa only [find_available_user] using h
      | some p =>
        by_cases hc : p ≠ "" ∧ st.users.any (fun u =>
            decide (u.id = p ∧ some u.department = dept ∧ u.status = "available")) = true
        · exfalso
          apply hnp
          rcases List.any_eq_true.mp hc.2 with ⟨u, hu, hdec⟩
          have hprop := of_decide_eq_true hdec
          exact ⟨p, rfl, hc.1, u, hu, hprop.1, hprop.2.1, hprop.2.2⟩
        · simpa only [find_available_user, if_neg hc] using h
    rcases Option.map_eq_some'.mp hsel with ⟨u, hu, hid⟩
    exact ⟨u, selectMin_mem hu, hid,
      selectMin_not_lt userLt_asymm userLt_negTrans hu⟩

/-- Witness for `c2_find_available_user_characterization`: the preferred-user
clause fires on a one-user store. -/
theorem c2_find_available_user_characterization_witness :
    find_available_user
      { emptyState with users :=
          [⟨"user_001", "Alice Johnson", "sales", none, "lead", "available"⟩] }
      (some "sales") (some "user_001") = some "user_001" :=
  (c2_find_available_user_characterization _ _ _).1 "user_001" rfl (by decide) (by decide)

/-- C9: whenever `find_available_user` returns a user id rather than the
none sentinel, some user row carries that id, has status available, and
belongs to the requested department. -/
theorem c9_find_available_user_sound (st : SystemState) (dept pref : Option String)
    (uid : String) (h : find_available_user st dept pref = some uid) :
    ∃ u ∈ st.users, u.id = uid ∧ u.status = "available" ∧ some u.department = dept := by
  cases pref with
  | none =>
    simp only [find_available_user] at h
    rcases Option.map_eq_some'.mp h with ⟨u, hu, hid⟩
    have hmem := selectMin_mem hu
    rcases List.mem_filter.mp hmem with ⟨hm, hdec⟩
    have hprop := of_decide_eq_true hdec
    exact ⟨u, hm, hid, hprop.2, hprop.1⟩
  | some p =>
    by_cases hc : p ≠ "" ∧ st.users.any (fun u =>
        decide (u.id = p ∧ some u.department = dept ∧ u.status = "available")) = true
    · simp only [find_available_user, if_pos hc] at h
      injection h with h
      rcases List.any_eq_true.mp hc.2 with ⟨u, hu, hdec⟩
      have hprop := of_decide_eq_true hdec
      exact ⟨u, hu, h ▸ hprop.1, hprop.2.2, hprop.2.1⟩
    · simp only [find_available_user, if_neg hc] at h
      rcases Option.map_eq_some'.mp h with ⟨u, hu, hid⟩
      have hmem := selectMin_mem hu
      rcases List.mem_filter.mp hmem with ⟨hm, hdec⟩
      have hprop := of_decide_eq_true hdec
      exact ⟨u, hm, hid, hprop.2, hprop.1⟩

/-- Witness for `c9_find_available_user_sound` on a one-user store. -/
theorem c9_find_available_user_sound_witness :
    ∃ u ∈ ({ emptyState with users :=
        [⟨"user_003", "Carol Davis", "credit_analysis", none, "lead", "available"⟩] } :
          SystemState).users,
      u.id = "user_003" ∧ u.status = "available" ∧ some u.department = some "credit_analysis" :=
  c9_find_available_user_sound _ (some "credit_analysis") none "user_003" (by decide)

/-! Claim C3: `apply_routing_rules`. -/

theorem firstRuleMatch_eq_none {f t : String} :
    ∀ {l : List RoutingRuleRow},
      firstRuleMatch f t l = none ↔ ∀ r ∈ l, ruleMatches f t r = false := by
  intro l
  induction l with
  | nil => simp [firstRuleMatch]
  | cons x xs ih =>
    simp only [firstRuleMatch]
    by_cases hm : ruleMatches f t x = true
    · rw [if_pos hm]
      constructor
      · intro h; exact absurd h Option.noConfusion
      · intro h
        have := h x (List.mem_cons_self x xs)
        rw [hm] at this
        exact absurd this Bool.noConfusion
    · rw [if_neg hm]
      constructor
      · intro h r hr
        rcases List.mem_cons.mp hr with rfl | hr
        · exact Bool.not_eq_true _ ▸ hm
        · exact ih.mp h r hr
      · intro h
        exact ih.mpr (fun r hr => h r (List.mem_cons_of_mem x hr))

theorem firstRuleMatch_mem {f t : String} :
    ∀ {l : List RoutingRuleRow} {r : RoutingRuleRow},
      firstRuleMatch f t l = some r → r ∈ l ∧ ruleMatches f t r = true := by
  intro l
  induction l with
  | nil => intro r h; simp [firstRuleMatch] at h
  | cons x xs ih =>
    intro r h
    simp only [firstRuleMatch] at h
    by_cases hm : ruleMatches f t x = true
    · rw [if_pos hm] at h
      injection h with h
      subst h
      exact ⟨List.mem_cons_self x xs, hm⟩
    · rw [if_neg hm] at h
      exact ⟨List.mem_cons_of_mem x (ih h).1, (ih h).2⟩

theorem firstRuleMatch_min {f t : String} :
    ∀ {l : List RoutingRuleRow} {r : RoutingRuleRow},
      List.Sorted rulePriorityLE l → firstRuleMatch f t l = some r →
      ∀ r' ∈ l, ruleMatches f t r' = true → r.priority ≤ r'.priority := by
  intro l
  induction l with
  | nil => intro r _ h; simp [firstRuleMatch] at h
  | cons x xs ih =>
    intro r hs h r' hr' hm'
    have hs' := List.sorted_cons.mp hs
    simp only [firstRuleMatch] at h
    by_cases hm : ruleMatches f t x = true
    · rw [if_pos hm] at h
      injection h with h
      subst h
      rcases List.mem_cons.mp hr' with rfl | hr'
      · exact le_refl _
      · exact hs'.1 r' hr'
    · rw [if_neg hm] at h
      rcases List.mem_cons.mp hr' with rfl | hr'
      · rw [hm'] at hm; exact absurd rfl hm
      · exact ih hs'.2 h r' hr' hm'

theorem mem_activeRulesSorted {st : SystemState} {r : RoutingRuleRow} :
    r ∈ activeRulesSorted st ↔ r ∈ st.routing_rules ∧ r.is_active = true := by
  unfold activeRulesSorted
  rw [List.mem_insertionSort]
  simp [List.mem_filter]

theorem sorted_activeRulesSorted (st : SystemState) :
    List.Sorted rulePriorityLE (activeRulesSorted st) :=
  List.sorted_insertionSort rulePriorityLE _

/-- C3: rule resolution consults only active rules, in ascending priority
order, and returns the target of the first matching rule (so its priority is
minimal among the active matching rules); it returns `(none, none)` exactly
when no active rule matches. -/
theorem c3_apply_routing_rules_spec (st : SystemState) (f t ty : String) :
    (∀ d u, apply_routing_rules st f t ty = (some d, u) →
       ∃ r ∈ st.routing_rules, r.is_active = true ∧ ruleMatches f t r = true ∧
         r.target_department = d ∧ r.target_user = u ∧
         ∀ r' ∈ st.routing_rules, r'.is_active = true → ruleMatches f t r' = true →
           r.priority ≤ r'.priority) ∧
    (apply_routing_rules st f t ty = (none, none) ↔
       ∀ r ∈ st.routing_rules, r.is_active = true → ruleMatches f t r = false) := by
  constructor
  · intro d u h
    unfold apply_routing_rules at h
    cases hf : firstRuleMatch f t (activeRulesSorted st) with
    | none =>
      rw [hf] at h
      dsimp only at h
      exact absurd h (by simp)
    | some r =>
      rw [hf] at h
      dsimp only at h
      have hmem := firstRuleMatch_mem hf
      have hd : r.target_department = d ∧ r.target_user = u := by
        have := Prod.mk.injEq (some r.target_department) r.target_user (some d) u ▸ h
        exact ⟨Option.some.inj this.1, this.2⟩
      refine ⟨r, (mem_activeRulesSorted.mp hmem.1).1, (mem_activeRulesSorted.mp hmem.1).2,
        hmem.2, hd.1, hd.2, ?_⟩
      intro r' hr' ha' hm'
      exact firstRuleMatch_min (sorted_activeRulesSorted st) hf r'
        (mem_activeRulesSorted.mpr ⟨hr', ha'⟩) hm'
  · unfold apply_routing_rules
    cases hf : firstRuleMatch f t (activeRulesSorted st) with
    | none =>
      dsimp only
      constructor
      · intro _ r hr ha
        exact (firstRuleMatch_eq_none.mp hf) r (mem_activeRulesSorted.mpr ⟨hr, ha⟩)
      · intro _; rfl
    | some r =>
      dsimp only
      constructor
      · intro h; exact absurd h (by simp)
      · intro hall
        exfalso
        have hmem := firstRuleMatch_mem hf
        have := hall r (mem_activeRulesSorted.mp hmem.1).1 (mem_activeRulesSorted.mp hmem.1).2
        rw [hmem.2] at this
        exact Bool.noConfusion this

/-- Witness for `c3_apply_routing_rules_spec`: a single phone-pattern rule
matching on the destination number fires. -/
theorem c3_apply_routing_rules_spec_witness :
    ∃ r ∈ ({ emptyState with routing_rules :=
        [⟨"rule1", 1, "phone_pattern", "555-CREDIT", "credit_analysis", none, true⟩] } :
          SystemState).routing_rules,
      r.is_active = true ∧ ruleMatches "+1234567890" "555-CREDIT-01" r = true ∧
      r.target_department = "credit_analysis" ∧ r.target_user = none ∧
      ∀ r' ∈ ({ emptyState with routing_rules :=
          [⟨"rule1", 1, "phone_pattern", "555-CREDIT", "credit_analysis", none, true⟩] } :
            SystemState).routing_rules,
        r'.is_active = true → ruleMatches "+1234567890" "555-CREDIT-01" r' = true →
        r.priority ≤ r'.priority :=
  (c3_apply_routing_rules_spec _ "+1234567890" "555-CREDIT-01" "call").1
    "credit_analysis" none (by decide)

/-! Claim C4: `get_available_phone`. -/

/-- The department-specific candidate list of `get_available_phone` (empty
when the requested department is falsy — absent or the empty string — since
`if department_id:` then skips the department query). -/
def deptCandidates (st : SystemState) (dept : Option String) (pm : Int) : List PhoneRow :=
  match dept with
  | some d => if d = "" then [] else deptEligible st d pm
  | none => []

theorem mem_deptEligible {st : SystemState} {d : String} {pm : Int} {p : PhoneRow}
    (h : p ∈ deptEligible st d pm) :
    p ∈ st.phone_numbers ∧ p.department_id = some d ∧ phoneEligible pm p := by
  rcases List.mem_filter.mp h with ⟨hm, hdec⟩
  exact ⟨hm, (of_decide_eq_true hdec).1, (of_decide_eq_true hdec).2⟩

theorem mem_generalEligible {st : SystemState} {pm : Int} {p : PhoneRow}
    (h : p ∈ generalEligible st pm) :
    p ∈ st.phone_numbers ∧ (p.department_id = none ∨ p.department_id = some "general") ∧
      phoneEligible pm p := by
  rcases List.mem_filter.mp h with ⟨hm, hdec⟩
  exact ⟨hm, (of_decide_eq_true hdec).1, (of_decide_eq_true hdec).2⟩

theorem fallback_phone_spec (st : SystemState) (pm : Int) :
    ((selectMin phoneLt (generalEligible st pm)).map (·.phone_number) = none ↔
       generalEligible st pm = []) ∧
    (∀ n, (selectMin phoneLt (generalEligible st pm)).map (·.phone_number) = some n →
       ∃ p ∈ generalEligible st pm, p.phone_number = n ∧
         ∀ q ∈ generalEligible st pm, ¬ phoneLt q p) := by
  constructor
  · constructor
    · intro h
      exact selectMin_eq_none.mp (Option.map_eq_none'.mp h)
    · intro h
      rw [h]
      simp [selectMin]
  · intro n h
    rcases Option.map_eq_some'.mp h with ⟨p, hp, hn⟩
    exact ⟨p, selectMin_mem hp, hn, selectMin_not_lt phoneLt_asymm phoneLt_negTrans hp⟩

/-- C4 (counterexample): the department preference of the original claim
fails for the empty-string department.  `if department_id:` is falsy for
`""`, so the source skips the department query, and a phone assigned to
department `""` belongs to neither candidate pool: the claim's reading
returns that qualifying phone, while the code returns the none sentinel. -/
theorem c4_counterexample :
    get_available_phone
      { emptyState with phone_numbers :=
          [⟨"pid1", "+15550009", some "", none, "available", "business", 5, 1, 0⟩] }
      (some "") 1 = none ∧
    ∃ p ∈ ({ emptyState with phone_numbers :=
        [⟨"pid1", "+15550009", some "", none, "available", "business", 5, 1, 0⟩] } :
          SystemState).phone_numbers,
      p.department_id = some "" ∧ p.status = "available" ∧
      p.current_calls < p.max_concurrent_calls ∧ (1 : Int) ≤ p.priority := by
  decide

/-- C4 (amended): `get_available_phone` returns `none` (and never throws)
exactly when no phone qualifies; a returned number belongs to an available,
under-capacity row meeting the priority floor, chosen with maximal priority
then minimal load within the department candidates when the requested
department is truthy (neither absent nor the empty string) and they exist,
and within the unassigned/general candidates only otherwise — a falsy
department skips the department query entirely. -/
theorem c4_get_available_phone_spec (st : SystemState) (dept : Option String) (pm : Int) :
    (get_available_phone st dept pm = none ↔
       deptCandidates st dept pm = [] ∧ generalEligible st pm = []) ∧
    (∀ n, get_available_phone st dept pm = some n →
       ∃ p ∈ st.phone_numbers, p.phone_number = n ∧ p.status = "available" ∧
         p.current_calls < p.max_concurrent_calls ∧ pm ≤ p.priority ∧
         ((p ∈ deptCandidates st dept pm ∧ ∀ q ∈ deptCandidates st dept pm, ¬ phoneLt q p) ∨
          (deptCandidates st dept pm = [] ∧ p ∈ generalEligible st pm ∧
            ∀ q ∈ generalEligible st pm, ¬ phoneLt q p))) := by
  cases dept with
  | none =>
    simp only [get_available_phone, deptCandidates]
    constructor
    · constructor
      · intro h
        exact ⟨trivial, (fallback_phone_spec st pm).1.mp h⟩
      · intro h
        exact (fallback_phone_spec st pm).1.mpr h.2
    · intro n h
      rcases (fallback_phone_spec st pm).2 n h with ⟨p, hp, hn, hmin⟩
      rcases mem_generalEligible hp with ⟨hm, _, he⟩
      exact ⟨p, hm, hn, he.1, he.2.1, he.2.2, Or.inr ⟨trivial, hp, hmin⟩⟩
  | some d =>
    by_cases hd : d = ""
    · simp only [get_available_phone, deptCandidates, if_pos hd]
      constructor
      · constructor
        · intro h
          exact ⟨trivial, (fallback_phone_spec st pm).1.mp h⟩
        · intro h
          exact (fallback_phone_spec st pm).1.mpr h.2
      · intro n h
        rcases (fallback_phone_spec st pm).2 n h with ⟨p, hp, hn, hmin⟩
        rcases mem_generalEligible hp with ⟨hm, _, he⟩
        exact ⟨p, hm, hn, he.1, he.2.1, he.2.2, Or.inr ⟨trivial, hp, hmin⟩⟩
    · simp only [get_available_phone, deptCandidates, if_neg hd]
      cases hsel : selectMin phoneLt (deptEligible st d pm) with
      | some p =>
        constructor
        · constructor
          · intro h; exact absurd h (by simp)
          · intro h
            rw [h.1] at hsel
            exact absurd hsel (by simp [selectMin])
        · intro n h
          have hn : p.phone_number = n := by
            injection h with h
          have hp := selectMin_mem hsel
          rcases mem_deptEligible hp with ⟨hm, _, he⟩
          exact ⟨p, hm, hn, he.1, he.2.1, he.2.2,
            Or.inl ⟨hp, selectMin_not_lt phoneLt_asymm phoneLt_negTrans hsel⟩⟩
      | none =>
        have hempty : deptEligible st d pm = [] := selectMin_eq_none.mp hsel
        constructor
        · constructor
          · intro h
            exact ⟨hempty, (fallback_phone_spec st pm).1.mp h⟩
          · intro h
            exact (fallback_phone_spec st pm).1.mpr h.2
        · intro n h
          rcases (fallback_phone_spec st pm).2 n h with ⟨p, hp, hn, hmin⟩
          rcases mem_generalEligible hp with ⟨hm, _, he⟩
          exact ⟨p, hm, hn, he.1, he.2.1, he.2.2, Or.inr ⟨hempty, hp, hmin⟩⟩

/-- Witness for `c4_get_available_phone_spec`: a department phone is returned
on a one-phone store. -/
theorem c4_get_available_phone_spec_witness :
    ∃ p ∈ ({ emptyState with phone_numbers :=
        [⟨"pid1", "+1-555-SALES-01", some "sales", none, "available", "business", 10, 1, 0⟩] } :
          SystemState).phone_numbers,
      p.phone_number = "+1-555-SALES-01" ∧ p.status = "available" ∧
      p.current_calls < p.max_concurrent_calls ∧ (1 : Int) ≤ p.priority ∧
      ((p ∈ deptCandidates { emptyState with phone_numbers :=
            [⟨"pid1", "+1-555-SALES-01", some "sales", none, "available", "business", 10, 1, 0⟩] }
            (some "sales") 1 ∧
          ∀ q ∈ deptCandidates { emptyState with phone_numbers :=
              [⟨"pid1", "+1-555-SALES-01", some "sales", none, "available", "business", 10, 1, 0⟩] }
              (some "sales") 1, ¬ phoneLt q p) ∨
       (deptCandidates { emptyState with phone_numbers :=
            [⟨"pid1", "+1-555-SALES-01", some "sales", none, "available", "business", 10, 1, 0⟩] }
            (some "sales") 1 = [] ∧
          p ∈ generalEligible { emptyState with phone_numbers :=
              [⟨"pid1", "+1-555-SALES-01", some "sales", none, "available", "business", 10, 1, 0⟩] } 1 ∧
          ∀ q ∈ generalEligible { emptyState with phone_numbers :=
              [⟨"pid1", "+1-555-SALES-01", some "sales", none, "available", "business", 10, 1, 0⟩] } 1,
            ¬ phoneLt q p)) :=
  (c4_get_available_phone_spec _ (some "sales") 1).2 "+1-555-SALES-01" (by decide)

/-! Claim C5: duplicate registration. -/

/-- C5: registering a phone number that is already registered returns the
duplicate-number error and returns the store unchanged — no phone row and no
stats row is created. -/
theorem c5_register_duplicate (st : SystemState) (pid pn : String)
    (d u : Option String) (ty : String) (pr mc : Int) (today : String)
    (h : ∃ p ∈ st.phone_numbers, p.phone_number = pn) :
    register_phone_number st pid pn d u ty pr mc today =
      (st, Except.error ("Phone " ++ pn ++ " already registered")) := by
  have hany : st.phone_numbers.any
      (fun p => decide (p.phone_number = pn ∨ p.id = pid)) = true := by
    rcases h with ⟨p, hp, he⟩
    exact List.any_eq_true.mpr ⟨p, hp, by simp [he]⟩
  unfold register_phone_number
  rw [if_pos hany]

/-- The one-phone store used to witness `c5_register_duplicate`. -/
def c5State : SystemState :=
  { emptyState with phone_numbers :=
      [⟨"pid1", "+15550001", none, none, "available", "business", 5, 1, 0⟩] }

/-- Witness for `c5_register_duplicate`. -/
theorem c5_register_duplicate_witness :
    register_phone_number c5State "pid2" "+15550001" none none "business" 5 1 "2025-01-01" =
      (c5State, Except.error ("Phone " ++ "+15550001" ++ " already registered")) :=
  c5_register_duplicate c5State "pid2" "+15550001" none none "business" 5 1 "2025-01-01"
    (by decide)

/-! Claim C6: the pipeline never drops a communication record. -/

theorem update_user_status_communications (st : SystemState) (uid : Option String)
    (s : String) : (update_user_status st uid s).communications = st.communications := rfl

theorem find_available_user_eq_none_of (st : SystemState) (dept pref : Option String)
    (h : ∀ u ∈ st.users, some u.department = dept → u.status ≠ "available") :
    find_available_user st dept pref = none := by
  have hav : availableUsers st dept = [] := by
    unfold availableUsers
    rw [List.filter_eq_nil_iff]
    intro u hu hdec
    have hp := of_decide_eq_true hdec
    exact h u hu hp.1 hp.2
  cases pref with
  | none => simp [find_available_user, hav, selectMin]
  | some p =>
    by_cases hc : p ≠ "" ∧ st.users.any (fun u =>
        decide (u.id = p ∧ some u.department = dept ∧ u.status = "available")) = true
    · exfalso
      rcases List.any_eq_true.mp hc.2 with ⟨u, hu, hdec⟩
      have hp := of_decide_eq_true hdec
      exact h u hu hp.2.1 hp.2.2
    · simp only [find_available_user, if_neg hc, hav]
      simp [selectMin]

/-- C6: `classify_incoming_communication` appends exactly one communication
record on every inbound event — the pipeline never aborts before persisting —
and when the target department has no available user the record carries a
null user assignment. -/
theorem c6_classify_always_logs (st : SystemState) (cid ts f t ty c : String) :
    (classify_incoming_communication st cid ts f t ty c).1.communications =
      st.communications ++ [classify_record st cid ts f t ty c] ∧
    ((∀ u ∈ st.users, some u.department = (classify_target st f t ty c).1 →
        u.status ≠ "available") →
      (classify_record st cid ts f t ty c).user_id = none) := by
  constructor
  · unfold classify_incoming_communication
    dsimp only
    split
    · rfl
    · rfl
  · intro h
    unfold classify_record
    dsimp only
    exact find_available_user_eq_none_of st _ _ h

/-- Witness for `c6_classify_always_logs` on the empty store: the record is
appended and its user assignment is null. -/
theorem c6_classify_always_logs_witness :
    (classify_incoming_communication emptyState "c1" "t1" "+1999" "+1888" "call" "hello").1.communications =
      emptyState.communications ++ [classify_record emptyState "c1" "t1" "+1999" "+1888" "call" "hello"] ∧
    (classify_record emptyState "c1" "t1" "+1999" "+1888" "call" "hello").user_id = none := by
  have h := c6_classify_always_logs emptyState "c1" "t1" "+1999" "+1888" "call" "hello"
  exact ⟨h.1, h.2 (by decide)⟩

/-! Claims C7 and C8: `end_call`. -/

theorem end_call_users (st : SystemState) (rid : String) (d : Int) (today : String) :
    (end_call st rid d today).users = st.users := by
  unfold end_call
  cases st.call_routing.find? (fun r => decide (r.id = rid)) with
  | none => rfl
  | some r => rfl

theorem end_call_call_routing (st : SystemState) (rid : String) (d : Int) (today : String)
    (r : CallRoutingRow) (hr : st.call_routing.find? (fun x => decide (x.id = rid)) = some r) :
    (end_call st rid d today).call_routing =
      st.call_routing.map (fun x => if x.id = rid then
        { x with call_duration := some d, status := "completed" } else x) := by
  unfold end_call
  rw [hr]

theorem end_call_phone_numbers (st : SystemState) (rid : String) (d : Int) (today : String)
    (r : CallRoutingRow) (hr : st.call_routing.find? (fun x => decide (x.id = rid)) = some r) :
    (end_call st rid d today).phone_numbers =
      st.phone_numbers.map (fun p => if some p.phone_number = r.routed_to_number then
        { p with current_calls := max 0 (p.current_calls - 1) } else p) := by
  unfold end_call
  rw [hr]

theorem end_call_phone_stats (st : SystemState) (rid : String) (d : Int) (today : String)
    (r : CallRoutingRow) (hr : st.call_routing.find? (fun x => decide (x.id = rid)) = some r) :
    (end_call st rid d today).phone_stats =
      st.phone_stats.map (fun s => if some s.phone_number = r.routed_to_number ∧ s.date = today then
        { s with total_duration := s.total_duration + d } else s) := by
  unfold end_call
  rw [hr]

/-- C7: for a recorded routed call, `end_call` marks the routing record
completed with the given duration, decrements the routed phone's
`current_calls` clamping at zero, adds the duration to that day's stats rows
of the routed phone, and leaves every user row — in particular every user's
status — unchanged. -/
theorem c7_end_call_effects (st : SystemState) (rid : String) (d : Int) (today : String)
    (r : CallRoutingRow) (hr : st.call_routing.find? (fun x => decide (x.id = rid)) = some r) :
    (end_call st rid d today).users = st.users ∧
    (end_call st rid d today).call_routing =
      st.call_routing.map (fun x => if x.id = rid then
        { x with call_duration := some d, status := "completed" } else x) ∧
    (end_call st rid d today).phone_numbers =
      st.phone_numbers.map (fun p => if some p.phone_number = r.routed_to_number then
        { p with current_calls := max 0 (p.current_calls - 1) } else p) ∧
    (end_call st rid d today).phone_stats =
      st.phone_stats.map (fun s => if some s.phone_number = r.routed_to_number ∧ s.date = today then
        { s with total_duration := s.total_duration + d } else s) :=
  ⟨end_call_users st rid d today, end_call_call_routing st rid d today r hr,
   end_call_phone_numbers st rid d today r hr, end_call_phone_stats st rid d today r hr⟩

/-- The call-routing row, phone row and stats row of the store used to
witness the `end_call` claims. -/
def c7State : SystemState :=
  { emptyState with
      call_routing := [⟨"r1", "+1234", "+15550001", some "+15550001", none, some "general",
        "normal_routing", "t1", none, "active"⟩],
      phone_numbers := [⟨"pid1", "+15550001", none, none, "available", "business", 5, 1, 1⟩],
      phone_stats := [⟨"+15550001_2025-01-01", "+15550001", "2025-01-01", 1, 0, 0⟩] }

/-- Witness for `c7_end_call_effects`. -/
theorem c7_end_call_effects_witness :
    (end_call c7State "r1" 60 "2025-01-01").users = c7State.users ∧
    (end_call c7State "r1" 60 "2025-01-01").call_routing =
      c7State.call_routing.map (fun x => if x.id = "r1" then
        { x with call_duration := some 60, status := "completed" } else x) ∧
    (end_call c7State "r1" 60 "2025-01-01").phone_numbers =
      c7State.phone_numbers.map (fun p => if some p.phone_number = some "+15550001" then
        { p with current_calls := max 0 (p.current_calls - 1) } else p) ∧
    (end_call c7State "r1" 60 "2025-01-01").phone_stats =
      c7State.phone_stats.map (fun s =>
        if some s.phone_number = some "+15550001" ∧ s.date = "2025-01-01" then
          { s with total_duration := s.total_duration + 60 } else s) :=
  c7_end_call_effects c7State "r1" 60 "2025-01-01"
    ⟨"r1", "+1234", "+15550001", some "+15550001", none, some "general",
      "normal_routing", "t1", none, "active"⟩ (by decide)

/-- Total recorded duration in the stats rows of a phone on a given day. -/
def dayDuration (st : SystemState) (pn today : String) : Int :=
  ((st.phone_stats.filter (fun s => decide (s.phone_number = pn ∧ s.date = today))).map
    (fun s => s.total_duration)).sum

theorem filter_map_upd (l : List PhoneStatsRow) (p today : String) (d : Int) :
    (l.map (fun s => if some s.phone_number = some p ∧ s.date = today then
        { s with total_duration := s.total_duration + d } else s)).filter
      (fun s => decide (s.phone_number = p ∧ s.date = today))
    = (l.filter (fun s => decide (s.phone_number = p ∧ s.date = today))).map
        (fun s => { s with total_duration := s.total_duration + d }) := by
  induction l with
  | nil => rfl
  | cons s l ih =>
    by_cases hs : s.phone_number = p ∧ s.date = today
    · have hs' : some s.phone_number = some p ∧ s.date = today :=
        ⟨congrArg some hs.1, hs.2⟩
      simp only [List.map_cons, if_pos hs', List.filter_cons]
      rw [if_pos (decide_eq_true hs), if_pos (decide_eq_true hs), List.map_cons, ih]
    · have hs' : ¬ (some s.phone_number = some p ∧ s.date = today) := by
        intro hc
        exact hs ⟨Option.some.inj hc.1, hc.2⟩
      simp only [List.map_cons, if_neg hs', List.filter_cons]
      rw [if_neg (by simpa using hs), if_neg (by simpa using hs)]
      exact ih

theorem find?_map_id_preserving (l : List CallRoutingRow) (rid : String)
    (f : CallRoutingRow → CallRoutingRow) (hf : ∀ x, (f x).id = x.id) :
    (l.map f).find? (fun x => decide (x.id = rid)) =
      (l.find? (fun x => decide (x.id = rid))).map f := by
  rw [List.find?_map]
  have hpred : ((fun x => decide (x.id = rid)) ∘ f) = (fun x => decide (x.id = rid)) :=
    funext (fun x => by simp [Function.comp, hf x])
  rw [hpred]

/-- C8: `end_call` is not idempotent for duration accumulation — with the
routed call recorded and exactly one same-day stats row for the routed
phone, one invocation adds the duration once and two invocations with the
same route id and duration add it twice. -/
theorem c8_end_call_double_counts (st : SystemState) (rid : String) (d : Int) (today : String)
    (r : CallRoutingRow) (p : String) (s0 : PhoneStatsRow)
    (hr : st.call_routing.find? (fun x => decide (x.id = rid)) = some r)
    (hp : r.routed_to_number = some p)
    (hs : st.phone_stats.filter (fun s => decide (s.phone_number = p ∧ s.date = today)) = [s0]) :
    dayDuration (end_call st rid d today) p today = dayDuration st p today + d ∧
    dayDuration (end_call (end_call st rid d today) rid d today) p today =
      dayDuration st p today + 2 * d := by
  have hstats1 : (end_call st rid d today).phone_stats =
      st.phone_stats.map (fun s => if some s.phone_number = some p ∧ s.date = today then
        { s with total_duration := s.total_duration + d } else s) := by
    rw [end_call_phone_stats st rid d today r hr, hp]
  have hfilter1 : (end_call st rid d today).phone_stats.filter
      (fun s => decide (s.phone_number = p ∧ s.date = today)) =
      [{ s0 with total_duration := s0.total_duration + d }] := by
    rw [hstats1, filter_map_upd, hs]
    rfl
  have hday0 : dayDuration st p today = s0.total_duration := by
    unfold dayDuration
    rw [hs]
    simp
  have hday1 : dayDuration (end_call st rid d today) p today = s0.total_duration + d := by
    unfold dayDuration
    rw [hfilter1]
    simp
  refine ⟨by rw [hday1, hday0], ?_⟩
  have hr1 : (end_call st rid d today).call_routing.find?
      (fun x => decide (x.id = rid)) =
      some { r with call_duration := some d, status := "completed" } := by
    have hid : r.id = rid := by
      have h := List.find?_some hr
      simpa using h
    rw [end_call_call_routing st rid d today r hr,
      find?_map_id_preserving _ rid _ (fun x => by split <;> rfl), hr,
      Option.map_some']
    rw [if_pos hid]
  have hstats2 : (end_call (end_call st rid d today) rid d today).phone_stats =
      (end_call st rid d today).phone_stats.map
        (fun s => if some s.phone_number = some p ∧ s.date = today then
          { s with total_duration := s.total_duration + d } else s) := by
    rw [end_call_phone_stats _ rid d today _ hr1]
    simp only [hp]
  have hfilter2 : (end_call (end_call st rid d today) rid d today).phone_stats.filter
      (fun s => decide (s.phone_number = p ∧ s.date = today)) =
      [{ s0 with total_duration := s0.total_duration + d + d }] := by
    rw [hstats2, filter_map_upd, hfilter1]
    rfl
  have hday2 : dayDuration (end_call (end_call st rid d today) rid d today) p today =
      s0.total_duration + d + d := by
    unfold dayDuration
    rw [hfilter2]
    simp
  rw [hday2, hday0]
  ring

/-- Witness for `c8_end_call_double_counts` on the concrete `c7State`-shaped
store (a fresh copy, so the two claims stay independent). -/
def c8State : SystemState :=
  { emptyState with
      call_routing := [⟨"r2", "+1234", "+15550002", some "+15550002", none, some "general",
        "normal_routing", "t1", none, "active"⟩],
      phone_numbers := [⟨"pid2", "+15550002", none, none, "available", "business", 5, 1, 1⟩],
      phone_stats := [⟨"+15550002_2025-01-01", "+15550002", "2025-01-01", 1, 0, 0⟩] }

/-- Witness for `c8_end_call_double_counts`. -/
theorem c8_end_call_double_counts_witness :
    dayDuration (end_call c8State "r2" 60 "2025-01-01") "+15550002" "2025-01-01" =
      dayDuration c8State "+15550002" "2025-01-01" + 60 ∧
    dayDuration (end_call (end_call c8State "r2" 60 "2025-01-01") "r2" 60 "2025-01-01")
        "+15550002" "2025-01-01" =
      dayDuration c8State "+15550002" "2025-01-01" + 2 * 60 :=
  c8_end_call_double_counts c8State "r2" 60 "2025-01-01"
    ⟨"r2", "+1234", "+15550002", some "+15550002", none, some "general",
      "normal_routing", "t1", none, "active"⟩ "+15550002"
    ⟨"+15550002_2025-01-01", "+15550002", "2025-01-01", 1, 0, 0⟩
    (by decide) (by decide) (by decide)

/-! Claim C10: `add_user` REPLACE semantics. -/

theorem create_department_users (st : SystemState) (dept_id name : String)
    (lead : Option String) (pns : List String) :
    (create_department st dept_id name lead pns).1.users = st.users := rfl

theorem update_department_membership_users (st : SystemState) (department : String) :
    (update_department_membership st department).users = st.users := by
  unfold update_department_membership
  split
  · rfl
  · exact create_department_users _ _ _ _ _

/-- C10: `add_user` on an id that already exists does not fail with a
duplicate error — it returns its success message unconditionally — and the
`INSERT OR REPLACE` silently replaces the existing row; because `status` is
not among the inserted columns, the stored status is reset to the default
`available` even when the old row was busy. -/
theorem c10_add_user_replaces (st : SystemState) (uid name dept : String)
    (phone : Option String) (role : String) (u0 : UserRow)
    (hmem : u0 ∈ st.users) (hid : u0.id = uid) (hbusy : u0.status = "busy") :
    ((add_user st uid name dept phone role).1.users.filter (fun u => decide (u.id = uid))
       = [⟨uid, name, dept, phone, role, "available"⟩]) ∧
    u0 ∉ (add_user st uid name dept phone role).1.users ∧
    (add_user st uid name dept phone role).2 =
      "User " ++ name ++ " added to " ++ dept ++ " department" := by
  have husers : (add_user st uid name dept phone role).1.users =
      st.users.filter (fun u => decide (u.id ≠ uid)) ++
        [⟨uid, name, dept, phone, role, "available"⟩] := by
    unfold add_user
    exact update_department_membership_users _ _
  refine ⟨?_, ?_, rfl⟩
  · rw [husers, List.filter_append]
    have h1 : (st.users.filter (fun u => decide (u.id ≠ uid))).filter
        (fun u => decide (u.id = uid)) = [] := by
      rw [List.filter_eq_nil_iff]
      intro u hu hdec
      have hne : u.id ≠ uid := of_decide_eq_true (List.mem_filter.mp hu).2
      exact hne (of_decide_eq_true hdec)
    rw [h1]
    simp
  · intro hc
    rw [husers] at hc
    rcases List.mem_append.mp hc with hc | hc
    · exact of_decide_eq_true (List.mem_filter.mp hc).2 hid
    · have : u0.status = "available" := by rw [List.mem_singleton.mp hc]
      rw [hbusy] at this
      exact absurd this (by decide)

/-- The one-user store with a busy user used to witness
`c10_add_user_replaces`. -/
def c10State : SystemState :=
  { emptyState with users :=
      [⟨"user_001", "Alice Johnson", "sales", none, "lead", "busy"⟩] }

/-- Witness for `c10_add_user_replaces`: re-adding the busy `user_001`
replaces the row and resets its status to available. -/
theorem c10_add_user_replaces_witness :
    ((add_user c10State "user_001" "Alice J" "sales" none "member").1.users.filter
        (fun u => decide (u.id = "user_001"))
      = [⟨"user_001", "Alice J", "sales", none, "member", "available"⟩]) ∧
    (⟨"user_001", "Alice Johnson", "sales", none, "lead", "busy"⟩ : UserRow) ∉
      (add_user c10State "user_001" "Alice J" "sales" none "member").1.users ∧
    (add_user c10State "user_001" "Alice J" "sales" none "member").2 =
      "User " ++ "Alice J" ++ " added to " ++ "sales" ++ " department" :=
  c10_add_user_replaces c10State "user_001" "Alice J" "sales" none "member"
    ⟨"user_001", "Alice Johnson", "sales", none, "lead", "busy"⟩
    (by decide) (by decide) (by decide)

end OneTalk
